import Mathlib

/-!
Verification development for the copy-sync clipboard synchronizer.

The Rust sources are embedded shallowly:
* src/client.rs   — clipboard message types, zlib codec wrappers, the
  change-detector tick, the inbound message handler, the reconnect loop;
* src/server.rs   — the relay broadcast step (skips Close frames);
* src/main.rs     — the older self-contained variant: its relay broadcast
  step (no Close filter) and its raw-text clipboard client;
* src/config.rs   — RETRY_CONNECT_INTERVAL_IN_SECONDS.

Machine integers are Nat, byte buffers are lists of Nat, fallible code
returns Option (a `none` result models a Rust panic through `.unwrap()`,
which tears the session down).  External crates used by the sources
(flate2, serde_json) are modelled from the spec where noted.
-/

/-- Bytes are modelled as natural numbers; a byte buffer is a list. -/
abbrev ByteSeq := List Nat

/-- tungstenite Message: the transport message kinds the program handles. -/
inductive WsMessage where
  | text (s : String)
  | binary (b : ByteSeq)
  | ping (b : ByteSeq)
  | pong (b : ByteSeq)
  | close
  deriving DecidableEq, Repr

/-- arboard ImageData: dimensions plus the RGBA8 pixel bytes
(client.rs compares only the bytes fields for equality). -/
structure ImageData where
  width : Nat
  height : Nat
  bytes : ByteSeq
  deriving DecidableEq, Repr

/-- client.rs ClipboardCache: the last clipboard content applied or sent. -/
inductive ClipboardCache where
  | Text (s : String)
  | Image (img : ImageData)
  deriving DecidableEq, Repr

/-- client.rs ClipboardMessageImage: the image header carried on the wire. -/
structure ClipboardMessageImage where
  width : Nat
  height : Nat
  deriving DecidableEq, Repr

/-- client.rs ClipboardMessageText. -/
structure ClipboardMessageText where
  content : String
  deriving DecidableEq, Repr

/-- client.rs ClipboardMessagePayload: the tagged payload of the envelope. -/
inductive ClipboardMessagePayload where
  | Text (t : ClipboardMessageText)
  | Image (i : ClipboardMessageImage)
  deriving DecidableEq, Repr

/-- client.rs ClipboardMessage: the wire envelope. -/
structure ClipboardMessage where
  payload : ClipboardMessagePayload
  deriving DecidableEq, Repr

/-- client.rs ClientState: per-session mutable state behind the mutex. -/
structure ClientState where
  cache : ClipboardCache
  image_info : ClipboardMessageImage
  id : String
  timestamp : Nat
  deriving DecidableEq, Repr

/-- A deflate stored block header followed by the raw data, marked final. -/
def storedFinalBlock (data : ByteSeq) : ByteSeq :=
  1 :: data.length % 256 :: data.length / 256 :: data

/-- Modelled from the spec: the flate2 ZlibEncoder used by client.rs
`encode` is an external crate; §4.2 requires a deflate-family compression
whose only contract is decode(encode(x)) == x.  The model emits deflate
stored blocks (65535-byte chunks, final-flag on the last) — a member of
the deflate family at the trivial compression level.  The fuel argument
makes the chunking recursion structural; `encode` supplies enough. -/
def encodeBlocksGo : Nat → ByteSeq → ByteSeq
  | 0, data => storedFinalBlock data
  | fuel + 1, data =>
    if data.length ≤ 65535 then storedFinalBlock data
    else 0 :: 255 :: 255 :: (data.take 65535 ++ encodeBlocksGo fuel (data.drop 65535))

/-- client.rs `encode`: zlib-compress a byte buffer (two-byte zlib header,
then the deflate blocks; see encodeBlocksGo for the library model). -/
def encode (bytes : ByteSeq) : ByteSeq :=
  120 :: 156 :: encodeBlocksGo bytes.length bytes

/-- Modelled from the spec: the flate2 ZlibDecoder used by client.rs
`decode` is an external crate; §4.2 requires inflation that fails on a
truncated or malformed stream.  Parses the stored blocks emitted by
encodeBlocksGo; `none` is the failure that client.rs turns into a panic
through `.unwrap()`.  Fuel makes the recursion structural. -/
def decodeBlocksGo : Nat → ByteSeq → Option ByteSeq
  | 0, _ => none
  | fuel + 1, l =>
    match l with
    | flag :: lo :: hi :: rest =>
      let len := lo + 256 * hi
      if len ≤ rest.length then
        if flag = 1 then
          if rest.drop len = [] then some (rest.take len) else none
        else
          match decodeBlocksGo fuel (rest.drop len) with
          | some tail => some (rest.take len ++ tail)
          | none => none
      else none
    | _ => none

/-- client.rs `decode`: zlib-inflate a byte buffer; `none` models the
panic of the `.unwrap()` on a malformed or truncated stream. -/
def decode (bytes : ByteSeq) : Option ByteSeq :=
  match bytes with
  | 120 :: 156 :: rest => decodeBlocksGo rest.length rest
  | _ => none

theorem decodeBlocksGo_storedFinalBlock (data : ByteSeq) (fD : Nat) :
    decodeBlocksGo (fD + 1) (storedFinalBlock data) = some data := by
  simp only [decodeBlocksGo, storedFinalBlock, Nat.mod_add_div, le_refl, if_pos,
    List.drop_length, List.take_length, if_true]

theorem decodeBlocksGo_encodeBlocksGo (fE : Nat) :
    ∀ (data : ByteSeq) (fD : Nat), fE + 1 ≤ fD →
      decodeBlocksGo fD (encodeBlocksGo fE data) = some data := by
  induction fE with
  | zero =>
    intro data fD h
    obtain ⟨fD', rfl⟩ : ∃ k, fD = k + 1 := ⟨fD - 1, by omega⟩
    exact decodeBlocksGo_storedFinalBlock data fD'
  | succ fE ih =>
    intro data fD h
    obtain ⟨fD', rfl⟩ : ∃ k, fD = k + 1 := ⟨fD - 1, by omega⟩
    by_cases hlen : data.length ≤ 65535
    · simp only [encodeBlocksGo, if_pos hlen]
      exact decodeBlocksGo_storedFinalBlock data fD'
    · simp only [encodeBlocksGo, if_neg hlen]
      have htake : (data.take 65535).length = 65535 := by
        simp [List.length_take]
        omega
      have hdropApp :
          ((data.take 65535 ++ encodeBlocksGo fE (data.drop 65535)).drop 65535)
            = encodeBlocksGo fE (data.drop 65535) :=
        List.drop_left' htake
      have htakeApp :
          ((data.take 65535 ++ encodeBlocksGo fE (data.drop 65535)).take 65535)
            = data.take 65535 :=
        List.take_left' htake
      have hlenApp :
          255 + 256 * 255
            ≤ (data.take 65535 ++ encodeBlocksGo fE (data.drop 65535)).length := by
        rw [List.length_append, htake]
        omega
      simp only [decodeBlocksGo]
      rw [if_pos hlenApp]
      rw [if_neg (by omega : ¬ (0 : Nat) = 1)]
      have hrec := ih (data.drop 65535) fD' (by omega)
      have h65535 : (255 : Nat) + 256 * 255 = 65535 := by norm_num
      rw [h65535, hdropApp, hrec, htakeApp]
      simp [List.take_append_drop]

theorem length_encodeBlocksGo (fE : Nat) :
    ∀ data : ByteSeq, data.length + 3 ≤ (encodeBlocksGo fE data).length := by
  induction fE with
  | zero =>
    intro data
    simp [encodeBlocksGo, storedFinalBlock]
  | succ fE ih =>
    intro data
    by_cases hlen : data.length ≤ 65535
    · simp [encodeBlocksGo, if_pos hlen, storedFinalBlock]
    · have := ih (data.drop 65535)
      simp only [encodeBlocksGo, if_neg hlen]
      simp only [List.length_cons, List.length_append, List.length_take,
        List.length_drop] at *
      omega

theorem decode_encode_eq (bytes : ByteSeq) : decode (encode bytes) = some bytes := by
  have hlen := length_encodeBlocksGo bytes.length bytes
  simp only [encode, decode]
  exact decodeBlocksGo_encodeBlocksGo bytes.length bytes _ (by omega)

/-- One lowercase hex digit character for a value below 16. -/
def hexDigitChar (n : Nat) : Char :=
  if n < 10 then Char.ofNat (48 + n) else Char.ofNat (87 + n)

/-- Modelled from the spec: serde_json string escaping (external crate),
as invoked by serialize_clipboard_message through serde_json::to_string.
Escapes the quote, the backslash and control characters. -/
def escapeJsonChar (c : Char) : List Char :=
  if c = '"' then ['\\', '"']
  else if c = '\\' then ['\\', '\\']
  else if c = '\n' then ['\\', 'n']
  else if c = '\r' then ['\\', 'r']
  else if c = '\t' then ['\\', 't']
  else if c.toNat = 8 then ['\\', 'b']
  else if c.toNat = 12 then ['\\', 'f']
  else if c.toNat < 32 then
    ['\\', 'u', '0', '0', hexDigitChar (c.toNat / 16), hexDigitChar (c.toNat % 16)]
  else [c]

/-- JSON rendering of a string body (without the surrounding quotes). -/
def escapeJsonString (s : String) : String :=
  String.mk (List.flatten (s.data.map escapeJsonChar))

/-- client.rs serialize_clipboard_message: wrap the payload in a
ClipboardMessage and render it with serde_json::to_string.  For these
derive types serde_json's output is fixed: one object with the single
field "payload" holding the externally tagged payload object, fields in
declaration order, no added whitespace. -/
def serialize_clipboard_message (payload : ClipboardMessagePayload) : String :=
  match payload with
  | .Text t =>
    "\x7b\"payload\":\x7b\"Text\":\x7b\"content\":\"" ++ escapeJsonString t.content
      ++ "\"\x7d\x7d\x7d"
  | .Image i =>
    "\x7b\"payload\":\x7b\"Image\":\x7b\"width\":" ++ toString i.width
      ++ ",\"height\":" ++ toString i.height ++ "\x7d\x7d\x7d"

/-- JSON whitespace characters. -/
def isJsonWs (c : Char) : Bool :=
  c = ' ' || c = '\t' || c = '\n' || c = '\r'

/-- Drop leading JSON whitespace. -/
def skipWs : List Char → List Char
  | [] => []
  | c :: rest => if isJsonWs c then skipWs rest else c :: rest

/-- Consume one expected character. -/
def expectChar (c : Char) : List Char → Option (List Char)
  | [] => none
  | d :: rest => if d = c then some rest else none

/-- Consume an expected literal character sequence. -/
def expectLit : List Char → List Char → Option (List Char)
  | [], input => some input
  | c :: cs, input =>
    match input with
    | [] => none
    | d :: rest => if d = c then expectLit cs rest else none

/-- Hexadecimal digit value. -/
def hexVal (c : Char) : Option Nat :=
  if 48 ≤ c.toNat ∧ c.toNat ≤ 57 then some (c.toNat - 48)
  else if 97 ≤ c.toNat ∧ c.toNat ≤ 102 then some (c.toNat - 87)
  else if 65 ≤ c.toNat ∧ c.toNat ≤ 70 then some (c.toNat - 55)
  else none

/-- JSON short escape characters. -/
def unescapeChar (c : Char) : Option Char :=
  if c = '"' then some '"'
  else if c = '\\' then some '\\'
  else if c = '/' then some '/'
  else if c = 'n' then some '\n'
  else if c = 'r' then some '\r'
  else if c = 't' then some '\t'
  else if c = 'b' then some (Char.ofNat 8)
  else if c = 'f' then some (Char.ofNat 12)
  else none

/-- Parse a JSON string body after the opening quote; returns the
unescaped characters and the input following the closing quote. -/
def parseStringBody : List Char → Option (List Char × List Char)
  | [] => none
  | c :: rest =>
    if c = '"' then some ([], rest)
    else if c = '\\' then
      match rest with
      | [] => none
      | e :: rest2 =>
        if e = 'u' then
          match rest2 with
          | h1 :: h2 :: h3 :: h4 :: rest3 =>
            match hexVal h1, hexVal h2, hexVal h3, hexVal h4 with
            | some a, some b, some c2, some d =>
              match parseStringBody rest3 with
              | some (s, r) => some (Char.ofNat (4096 * a + 256 * b + 16 * c2 + d) :: s, r)
              | none => none
            | _, _, _, _ => none
          | _ => none
        else
          match unescapeChar e with
          | some ch =>
            match parseStringBody rest2 with
            | some (s, r) => some (ch :: s, r)
            | none => none
          | none => none
    else
      match parseStringBody rest with
      | some (s, r) => some (c :: s, r)
      | none => none

/-- Accumulate decimal digits. -/
def parseNatGo : List Char → Nat → Nat × List Char
  | [], acc => (acc, [])
  | c :: rest, acc =>
    if c.isDigit then parseNatGo rest (acc * 10 + (c.toNat - 48)) else (acc, c :: rest)

/-- Parse a decimal number token. -/
def parseNatTok : List Char → Option (Nat × List Char)
  | [] => none
  | c :: rest => if c.isDigit then some (parseNatGo rest (c.toNat - 48)) else none

/-- Parse the body of a Text payload after its tag. -/
def parseTextBody (l : List Char) : Option (ClipboardMessagePayload × List Char) := do
  let l ← expectChar ':' (skipWs l)
  let l ← expectChar '\x7b' (skipWs l)
  let l ← expectLit ("\"content\"".data) (skipWs l)
  let l ← expectChar ':' (skipWs l)
  let l ← expectChar '"' (skipWs l)
  let (content, l) ← parseStringBody l
  let l ← expectChar '\x7d' (skipWs l)
  some (ClipboardMessagePayload.Text ⟨String.mk content⟩, l)

/-- Parse the body of an Image payload after its tag. -/
def parseImageBody (l : List Char) : Option (ClipboardMessagePayload × List Char) := do
  let l ← expectChar ':' (skipWs l)
  let l ← expectChar '\x7b' (skipWs l)
  let l ← expectLit ("\"width\"".data) (skipWs l)
  let l ← expectChar ':' (skipWs l)
  let (w, l) ← parseNatTok (skipWs l)
  let l ← expectChar ',' (skipWs l)
  let l ← expectLit ("\"height\"".data) (skipWs l)
  let l ← expectChar ':' (skipWs l)
  let (h, l) ← parseNatTok (skipWs l)
  let l ← expectChar '\x7d' (skipWs l)
  some (ClipboardMessagePayload.Image ⟨w, h⟩, l)

/-- Parse the externally tagged payload object body. -/
def parsePayloadValue (l : List Char) : Option (ClipboardMessagePayload × List Char) :=
  match expectLit ("\"Text\"".data) l with
  | some rest => parseTextBody rest
  | none =>
    match expectLit ("\"Image\"".data) l with
    | some rest => parseImageBody rest
    | none => none

/-- Modelled from the spec: serde_json deserialization of the
ChangeNotification envelope (serde_json::from_str in client.rs
handle_message is an external crate).  Accepts the canonical envelope of
the wire format with optional JSON whitespace between tokens and requires
the whole input to be consumed; `none` is the CodecError on a malformed
envelope or unrecognized tag. -/
def parseClipboardMessage (s : String) : Option ClipboardMessage := do
  let l := skipWs s.data
  let l ← expectChar '\x7b' l
  let l ← expectLit ("\"payload\"".data) (skipWs l)
  let l ← expectChar ':' (skipWs l)
  let l ← expectChar '\x7b' (skipWs l)
  let (p, l) ← parsePayloadValue (skipWs l)
  let l ← expectChar '\x7d' (skipWs l)
  let l ← expectChar '\x7d' (skipWs l)
  if skipWs l = [] then some ⟨p⟩ else none

/-- The outcome of one clipboard read in client.rs check_clipboard:
get_image is tried first; on Error::ContentNotAvailable the code falls
back to get_text; any other get_image error (or a get_text error) skips
the tick. -/
inductive ClipboardReadResult where
  | image (img : ImageData)
  | text (s : String)
  | noContent
  | readErr
  deriving DecidableEq, Repr

/-- client.rs check_clipboard, one 2-second tick: diff the clipboard read
against state.cache and emit the outbound messages for this tick; returns
the updated state and the messages pushed onto the unbounded sender, in
send order (image header before compressed pixel payload). -/
def check_clipboard_tick (r : ClipboardReadResult) (st : ClientState) :
    ClientState × List WsMessage :=
  match r with
  | .image current =>
    let unchanged : Bool :=
      match st.cache with
      | .Image image => image.bytes == current.bytes
      | _ => false
    if unchanged then (st, [])
    else
      ({ st with cache := .Image current },
        [WsMessage.text (serialize_clipboard_message
            (.Image ⟨current.width, current.height⟩)),
          WsMessage.binary (encode current.bytes)])
  | .text current =>
    let unchanged : Bool :=
      match st.cache with
      | .Text t => t == current
      | _ => false
    if unchanged then (st, [])
    else
      ({ st with cache := .Text current },
        [WsMessage.text (serialize_clipboard_message (.Text ⟨current⟩))])
  | .noContent => (st, [])
  | .readErr => (st, [])

/-- Observable side effects of handle_message: clipboard writes with the
outcome of the set call, the desktop notification, println logging. -/
inductive SessionEffect where
  | setText (s : String) (ok : Bool)
  | setImage (img : ImageData) (ok : Bool)
  | notified (s : String)
  | logged (s : String)
  deriving DecidableEq, Repr

/-- client.rs handle_message: apply one received transport message to the
session state.  fresh_id stands for the random generate_ulid() value and
write_ok for the outcome of the clipboard set call (a failed set is only
printed).  A `none` result models a panic of an `.unwrap()` call —
serde_json::from_str on a malformed envelope, or decode on a malformed
compressed stream — which tears the session down. -/
def handle_message (message : WsMessage) (fresh_id : String) (write_ok : Bool)
    (st : ClientState) : Option (ClientState × List SessionEffect) :=
  match message with
  | .text text =>
    match parseClipboardMessage text with
    | none => none
    | some m =>
      match m.payload with
      | .Text payload =>
        some ({ st with cache := .Text payload.content, id := fresh_id, timestamp := 0 },
          SessionEffect.setText payload.content write_ok ::
            (if write_ok then [] else [SessionEffect.logged ("set text error")]))
      | .Image payload =>
        some ({ st with image_info := payload, id := fresh_id, timestamp := 0 }, [])
  | .binary binary =>
    match decode binary with
    | none => none
    | some bytes =>
      let image : ImageData := ⟨st.image_info.width, st.image_info.height, bytes⟩
      some ({ st with cache := .Image image },
        SessionEffect.setImage image write_ok ::
          ((if write_ok then [] else [SessionEffect.logged ("set image error")]) ++
            [SessionEffect.notified ("W: " ++ toString st.image_info.width
              ++ " H: " ++ toString st.image_info.height)]))
  | _ => some (st, [SessionEffect.logged ("unknow")])

/-- config.rs RETRY_CONNECT_INTERVAL_IN_SECONDS. -/
def RETRY_CONNECT_INTERVAL_IN_SECONDS : Nat := 60

/-- The outcome of one connect_async_with_config attempt in client.rs
start. -/
inductive ConnectResult where
  | ok
  | err
  deriving DecidableEq, Repr

/-- client.rs run: the ClientState a fresh session starts with (empty text
cache, zero image header, a fresh ulid, zero timestamp). -/
def initial_client_state (fresh_id : String) : ClientState :=
  { cache := .Text "", image_info := ⟨0, 0⟩, id := fresh_id, timestamp := 0 }

/-- client.rs start, one iteration of the reconnect loop: on a successful
connection run a session with a freshly created state and loop again with
no sleep; on a failed or refused connection sleep the fixed retry
interval, then loop.  Returns the state the session (if any) starts with
and the delay in seconds before the next connection attempt. -/
def start_attempt (r : ConnectResult) (fresh_id : String) :
    Option ClientState × Nat :=
  match r with
  | .ok => (some (initial_client_state fresh_id), 0)
  | .err => (none, RETRY_CONNECT_INTERVAL_IN_SECONDS)

/-- client.rs start: the loop applied to a whole sequence of connection
attempt outcomes (each paired with the ulid its session would draw); the
loop never exits, so every attempt in the input is processed. -/
def start_trace : List (ConnectResult × String) → List (Option ClientState × Nat)
  | [] => []
  | (r, uid) :: rest => start_attempt r uid :: start_trace rest

/-- The relay registry: connection identity (socket address, modelled as a
Nat) mapped to that connection's outbound FIFO queue.  Entries are
pairwise distinct in identity, as in the HashMap. -/
abbrev PeerMap := List (Nat × List WsMessage)

/-- server.rs handle_connection, the broadcast_incoming closure for one
inbound message: a Close frame is not forwarded; any other message is
pushed onto the unbounded queue of every registered peer whose address
differs from the sender's. -/
def server_broadcast_step (peers : PeerMap) (addr : Nat) (msg : WsMessage) : PeerMap :=
  match msg with
  | .close => peers
  | _ => peers.map (fun p => if p.1 = addr then p else (p.1, p.2 ++ [msg]))

/-- main.rs handle_connection, the broadcast_incoming closure for one
inbound message: every message — Close frames included — is pushed onto
the queue of every registered peer other than the sender. -/
def main_broadcast_step (peers : PeerMap) (addr : Nat) (msg : WsMessage) : PeerMap :=
  peers.map (fun p => if p.1 = addr then p else (p.1, p.2 ++ [msg]))

/-- server.rs broadcast across an inbound message sequence from one
sender, in the order the transport delivers them. -/
def server_broadcast_run (peers : PeerMap) (addr : Nat) (msgs : List WsMessage) : PeerMap :=
  msgs.foldl (fun ps m => server_broadcast_step ps addr m) peers

/-- main.rs broadcast across an inbound message sequence from one
sender. -/
def main_broadcast_run (peers : PeerMap) (addr : Nat) (msgs : List WsMessage) : PeerMap :=
  msgs.foldl (fun ps m => main_broadcast_step ps addr m) peers

/-- main.rs ClipboardState for the raw-text client variant (the Clipboard
instance itself is the external handle and carries no state). -/
structure MainClipboardState where
  cache : String
  count : Int
  deriving DecidableEq, Repr

/-- main.rs check_clipboard, one 2-second tick of the raw-text client: a
failed get_text skips the tick; on success, if the text differs from the
cache, the cache is updated and the raw text is sent as a Text message —
with no envelope around it. -/
def main_check_clipboard_tick (readText : Option String) (st : MainClipboardState) :
    MainClipboardState × List WsMessage :=
  match readText with
  | none => (st, [])
  | some current =>
    if current ≠ st.cache then
      ({ st with cache := current }, [WsMessage.text current])
    else (st, [])

/-- The echo-suppression guard of check_clipboard: the clipboard read is
byte-exactly what the cache holds (client.rs compares image pixel bytes,
and text strings, for equality). -/
def cache_read_matches (r : ClipboardReadResult) (c : ClipboardCache) : Bool :=
  match r, c with
  | .image current, .Image image => image.bytes == current.bytes
  | .text s, .Text t => t == s
  | _, _ => false

theorem main_broadcast_run_cons (peers : PeerMap) (addr : Nat) (m : WsMessage)
    (ms : List WsMessage) :
    main_broadcast_run peers addr (m :: ms)
      = main_broadcast_run (main_broadcast_step peers addr m) addr ms := rfl

theorem server_broadcast_run_cons (peers : PeerMap) (addr : Nat) (m : WsMessage)
    (ms : List WsMessage) :
    server_broadcast_run peers addr (m :: ms)
      = server_broadcast_run (server_broadcast_step peers addr m) addr ms := rfl

theorem main_broadcast_run_eq (addr : Nat) :
    ∀ (msgs : List WsMessage) (peers : PeerMap),
      main_broadcast_run peers addr msgs
        = peers.map (fun p => if p.1 = addr then p else (p.1, p.2 ++ msgs)) := by
  intro msgs
  induction msgs with
  | nil =>
    intro peers
    have hid : ∀ p : Nat × List WsMessage,
        (if p.1 = addr then p else (p.1, p.2 ++ ([] : List WsMessage))) = p := by
      intro p
      by_cases h : p.1 = addr <;> simp [h]
    simp only [main_broadcast_run, List.foldl_nil]
    rw [List.map_congr_left (fun p _ => hid p)]
    simp
  | cons m ms ih =>
    intro peers
    rw [main_broadcast_run_cons, ih, main_broadcast_step, List.map_map]
    refine List.map_congr_left (fun p _ => ?_)
    by_cases h : p.1 = addr <;> simp [Function.comp, h]

theorem server_broadcast_step_eq_main (peers : PeerMap) (addr : Nat) (m : WsMessage)
    (h : m ≠ WsMessage.close) :
    server_broadcast_step peers addr m = main_broadcast_step peers addr m := by
  cases m <;> first | rfl | exact absurd rfl h

theorem server_broadcast_run_eq_main (addr : Nat) :
    ∀ (msgs : List WsMessage) (peers : PeerMap), (∀ m ∈ msgs, m ≠ WsMessage.close) →
      server_broadcast_run peers addr msgs = main_broadcast_run peers addr msgs := by
  intro msgs
  induction msgs with
  | nil => intro peers _; rfl
  | cons m ms ih =>
    intro peers h
    have hm : m ≠ WsMessage.close := h m (List.mem_cons_self m ms)
    have hms : ∀ x ∈ ms, x ≠ WsMessage.close := fun x hx => h x (List.mem_cons_of_mem m hx)
    rw [server_broadcast_run_cons, main_broadcast_run_cons,
      server_broadcast_step_eq_main peers addr m hm]
    exact ih (main_broadcast_step peers addr m) hms

/-- C7: codec round-trip — for every byte sequence B, decoding the
encoding of B yields exactly B. -/
theorem C7_codec_round_trip (bytes : ByteSeq) : decode (encode bytes) = some bytes :=
  decode_encode_eq bytes

/-- C2: broadcast fan-out — processing a sequence of inbound messages from
a registered sender appends exactly that sequence, in order, onto the
outbound queue of every registered connection other than the sender, and
never onto the sender's own queue: unconditionally in the main.rs relay,
and for every non-Close message (the only kind carrying notifications;
Close frames end the sender's own session, claim C5) in the server.rs
relay. -/
theorem C2_broadcast_fan_out (peers : PeerMap) (addr : Nat) (msgs : List WsMessage) :
    main_broadcast_run peers addr msgs
        = peers.map (fun p => if p.1 = addr then p else (p.1, p.2 ++ msgs))
      ∧ ((∀ m ∈ msgs, m ≠ WsMessage.close) →
        server_broadcast_run peers addr msgs
          = peers.map (fun p => if p.1 = addr then p else (p.1, p.2 ++ msgs))) := by
  refine ⟨main_broadcast_run_eq addr msgs peers, fun h => ?_⟩
  rw [server_broadcast_run_eq_main addr msgs peers h]
  exact main_broadcast_run_eq addr msgs peers

/-- C2 witness: in a relay with registered connections 0, 1, 2, two text
messages from connection 0 land, in order, on the queues of 1 and 2 and
not on 0's own queue. -/
theorem C2_broadcast_fan_out_witness :
    server_broadcast_run [(0, []), (1, []), (2, [])] 0
        [WsMessage.text ("a"), WsMessage.text ("b")]
      = [(0, []), (1, [WsMessage.text ("a"), WsMessage.text ("b")]),
          (2, [WsMessage.text ("a"), WsMessage.text ("b")])] := by
  rw [(C2_broadcast_fan_out [(0, []), (1, []), (2, [])] 0
    [WsMessage.text ("a"), WsMessage.text ("b")]).2 (by decide)]
  rfl

/-- C5: in the server.rs relay an inbound Close frame is never forwarded —
the broadcast step leaves every registered outbound queue unchanged, so
the Close only ends the sender's own session. -/
theorem C5_close_not_broadcast (peers : PeerMap) (addr : Nat) :
    server_broadcast_step peers addr WsMessage.close = peers := rfl

/-- C5 fails in the main.rs relay variant: a Close frame arriving from
connection 0 is enqueued onto connection 1's outbound queue. -/
theorem C5_counterexample :
    main_broadcast_step [(0, []), (1, [])] 0 WsMessage.close
      = [(0, []), (1, [WsMessage.close])] := rfl

/-- C1: echo suppression — (i) after handle_message applies a received
text notification carrying content c, a detector tick that reads the
clipboard back as text c enqueues nothing and leaves the state unchanged;
(ii) after handle_message applies a received binary image payload, a tick
that reads back an image with the same pixel bytes enqueues nothing;
(iii) in general, no tick whose clipboard read is byte-exactly equal to
the cache enqueues any outbound message. -/
theorem C1_echo_suppression :
    (∀ (s c : String) (st st' : ClientState) (uid : String) (wr : Bool)
        (fx : List SessionEffect),
      parseClipboardMessage s = some ⟨.Text ⟨c⟩⟩ →
      handle_message (.text s) uid wr st = some (st', fx) →
      check_clipboard_tick (.text c) st' = (st', []))
    ∧ (∀ (b bs : ByteSeq) (st st' : ClientState) (uid : String) (wr : Bool)
        (fx : List SessionEffect) (w h : Nat),
      decode b = some bs →
      handle_message (.binary b) uid wr st = some (st', fx) →
      check_clipboard_tick (.image ⟨w, h, bs⟩) st' = (st', []))
    ∧ (∀ (r : ClipboardReadResult) (st : ClientState),
      cache_read_matches r st.cache = true →
      check_clipboard_tick r st = (st, [])) := by
  refine ⟨?_, ?_, ?_⟩
  · intro s c st st' uid wr fx hparse hmsg
    simp only [handle_message, hparse, Option.some.injEq, Prod.mk.injEq] at hmsg
    obtain ⟨h1, _⟩ := hmsg
    subst h1
    simp [check_clipboard_tick]
  · intro b bs st st' uid wr fx w h hdec hmsg
    simp only [handle_message, hdec, Option.some.injEq, Prod.mk.injEq] at hmsg
    obtain ⟨h1, _⟩ := hmsg
    subst h1
    simp [check_clipboard_tick]
  · intro r st h
    cases r with
    | image current =>
      cases hc : st.cache with
      | Text t => simp [cache_read_matches, hc] at h
      | Image image => simp [check_clipboard_tick, hc, cache_read_matches, hc] at h ⊢; simp [h]
    | text s =>
      cases hc : st.cache with
      | Text t => simp [cache_read_matches, hc] at h; simp [check_clipboard_tick, hc, h]
      | Image image => simp [cache_read_matches, hc] at h
    | noContent => rfl
    | readErr => rfl

/-- C1 witness: a session that just applied the remote text "hi" does not
re-enqueue it when the clipboard reads back as "hi" on the next tick. -/
theorem C1_echo_suppression_witness :
    check_clipboard_tick (.text "hi") ⟨.Text "hi", ⟨0, 0⟩, "u", 0⟩
      = (⟨.Text "hi", ⟨0, 0⟩, "u", 0⟩, []) :=
  C1_echo_suppression.1 (serialize_clipboard_message (.Text ⟨"hi"⟩)) "hi"
    ⟨.Text "", ⟨0, 0⟩, "s", 0⟩ ⟨.Text "hi", ⟨0, 0⟩, "u", 0⟩ "u" false
    [SessionEffect.setText "hi" false, SessionEffect.logged ("set text error")]
    (by rfl) (by rfl)

/-- C3 fails on the code: with no image header pending (the session still
holds the initial zero header), a binary payload whose stream inflates is
not dropped — handle_message decodes it, applies it to the clipboard as a
0 by 0 image and overwrites the cache with it. -/
theorem C3_counterexample :
    handle_message (.binary (encode [1, 2, 3])) "t" true ⟨.Text "", ⟨0, 0⟩, "s", 0⟩
        = some (⟨.Image ⟨0, 0, [1, 2, 3]⟩, ⟨0, 0⟩, "s", 0⟩,
          [SessionEffect.setImage ⟨0, 0, [1, 2, 3]⟩ true,
            SessionEffect.notified ("W: 0 H: 0")])
      ∧ ClipboardCache.Image ⟨0, 0, [1, 2, 3]⟩ ≠ ClipboardCache.Text "" :=
  ⟨rfl, by decide⟩

/-- C3 amended: handle_message has no pending-header check — every binary
message whose compressed stream inflates is applied as an image built
from the most recently stored header dimensions (the initial 0 by 0 if no
header was ever received), the clipboard write is attempted, a desktop
notification is emitted, and the cache is overwritten. -/
theorem C3_binary_always_applied (b bs : ByteSeq) (st : ClientState)
    (uid : String) (wr : Bool) (hdec : decode b = some bs) :
    handle_message (.binary b) uid wr st
      = some ({ st with cache := .Image ⟨st.image_info.width, st.image_info.height, bs⟩ },
        SessionEffect.setImage ⟨st.image_info.width, st.image_info.height, bs⟩ wr ::
          ((if wr then [] else [SessionEffect.logged ("set image error")]) ++
            [SessionEffect.notified ("W: " ++ toString st.image_info.width
              ++ " H: " ++ toString st.image_info.height)])) := by
  simp [handle_message, hdec]

/-- C3 amended witness: a session holding a 2 by 2 header applies the next
binary payload with those dimensions even though the write fails. -/
theorem C3_binary_always_applied_witness :
    handle_message (.binary (encode [7])) "u" false ⟨.Text "x", ⟨2, 2⟩, "s", 0⟩
      = some (⟨.Image ⟨2, 2, [7]⟩, ⟨2, 2⟩, "s", 0⟩,
        [SessionEffect.setImage ⟨2, 2, [7]⟩ false,
          SessionEffect.logged ("set image error"),
          SessionEffect.notified ("W: 2 H: 2")]) := by
  rw [C3_binary_always_applied (encode [7]) [7] ⟨.Text "x", ⟨2, 2⟩, "s", 0⟩ "u" false
    (by rfl)]
  rfl

/-- C4 fails on the code: a text message that is not a well-formed
envelope, and a binary message whose stream is malformed, are not dropped
with the session continuing — the respective unwrap panics (result
`none`), tearing the session down. -/
theorem C4_counterexample :
    handle_message (.text ("definitely not a clipboard message")) "u" true
          ⟨.Text "", ⟨0, 0⟩, "s", 0⟩ = none
      ∧ handle_message (.binary [1, 2, 3]) "u" true ⟨.Text "", ⟨0, 0⟩, "s", 0⟩ = none :=
  ⟨rfl, rfl⟩

/-- C4 amended: every received text message that does not deserialize as
a ChangeNotification envelope, and every binary message whose compressed
stream is truncated or malformed, makes handle_message panic through its
`.unwrap()` (modelled as `none`), terminating the session instead of
dropping the message and continuing. -/
theorem C4_malformed_message_panics :
    (∀ (s : String) (st : ClientState) (uid : String) (wr : Bool),
      parseClipboardMessage s = none → handle_message (.text s) uid wr st = none)
    ∧ (∀ (b : ByteSeq) (st : ClientState) (uid : String) (wr : Bool),
      decode b = none → handle_message (.binary b) uid wr st = none) := by
  constructor
  · intro s st uid wr h
    simp [handle_message, h]
  · intro b st uid wr h
    simp [handle_message, h]

/-- C4 amended witness: a lone opening brace is rejected by the envelope
parser and panics the handler; an empty binary payload does the same. -/
theorem C4_malformed_message_panics_witness :
    handle_message (.text ("\x7b")) "u" true ⟨.Text "", ⟨0, 0⟩, "s", 0⟩ = none
      ∧ handle_message (.binary []) "u" true ⟨.Text "", ⟨0, 0⟩, "s", 0⟩ = none :=
  ⟨C4_malformed_message_panics.1 "\x7b" ⟨.Text "", ⟨0, 0⟩, "s", 0⟩ "u" true (by rfl),
    C4_malformed_message_panics.2 [] ⟨.Text "", ⟨0, 0⟩, "s", 0⟩ "u" true (by rfl)⟩

/-- C6 fails for the main.rs client variant: on detecting clipboard text
"hello" it sends the raw string "hello" as the Text message, which is not
a ChangeNotification envelope (it does not deserialize as one). -/
theorem C6_counterexample :
    main_check_clipboard_tick (some "hello") ⟨"", 0⟩
        = (⟨"hello", 0⟩, [WsMessage.text ("hello")])
      ∧ parseClipboardMessage ("hello") = none :=
  ⟨rfl, rfl⟩

/-- C6 amended: in client.rs every Text message a detector tick emits is
a serialized ChangeNotification envelope — serialize_clipboard_message of
a Text content payload or of an Image width and height payload — and in
particular text "hello" produces exactly the JSON object of the claim;
the main.rs client variant instead sends the raw clipboard text with no
envelope. -/
theorem C6_wire_format_client :
    (∀ (r : ClipboardReadResult) (st : ClientState) (s : String),
      WsMessage.text s ∈ (check_clipboard_tick r st).2 →
      (∃ c, s = serialize_clipboard_message (.Text ⟨c⟩))
        ∨ (∃ w h, s = serialize_clipboard_message (.Image ⟨w, h⟩)))
    ∧ serialize_clipboard_message (.Text ⟨"hello"⟩)
        = "\x7b\"payload\":\x7b\"Text\":\x7b\"content\":\"hello\"\x7d\x7d\x7d" := by
  constructor
  · intro r st s hmem
    cases r with
    | image current =>
      simp only [check_clipboard_tick] at hmem
      split at hmem
      · simp at hmem
      · simp only [List.mem_cons, List.not_mem_nil, or_false] at hmem
        rcases hmem with hmem | hmem
        · right
          exact ⟨current.width, current.height, (WsMessage.text.injEq ..).mp hmem⟩
        · exact absurd hmem (by simp)
    | text current =>
      simp only [check_clipboard_tick] at hmem
      split at hmem
      · simp at hmem
      · simp only [List.mem_cons, List.not_mem_nil, or_false] at hmem
        left
        exact ⟨current, (WsMessage.text.injEq ..).mp hmem⟩
    | noContent => simp [check_clipboard_tick] at hmem
    | readErr => simp [check_clipboard_tick] at hmem
  · rfl

/-- C6 amended witness: the one Text message of a concrete text tick is
the serialization of a Text payload. -/
theorem C6_wire_format_client_witness :
    (∃ c, serialize_clipboard_message (.Text ⟨"hi"⟩)
        = serialize_clipboard_message (.Text ⟨c⟩))
      ∨ (∃ w h, serialize_clipboard_message (.Text ⟨"hi"⟩)
        = serialize_clipboard_message (.Image ⟨w, h⟩)) :=
  C6_wire_format_client.1 (.text "hi") ⟨.Text "", ⟨0, 0⟩, "s", 0⟩
    (serialize_clipboard_message (.Text ⟨"hi"⟩)) (by simp [check_clipboard_tick])

/-- C9: a received text notification updates the cache to the received
content even when the local clipboard write fails — the session stays up,
the failure is only logged, and the cache now holds content the clipboard
never received, so a later tick reading that same content back would be
suppressed. -/
theorem C9_cache_updated_on_failed_write (s c : String) (st : ClientState)
    (uid : String) (hparse : parseClipboardMessage s = some ⟨.Text ⟨c⟩⟩) :
    handle_message (.text s) uid false st
      = some ({ st with cache := .Text c, id := uid, timestamp := 0 },
        [SessionEffect.setText c false, SessionEffect.logged ("set text error")]) := by
  simp [handle_message, hparse]

/-- C9 witness: applying the envelope for "hi" with a failing clipboard
write still rewrites the cache to "hi". -/
theorem C9_cache_updated_on_failed_write_witness :
    handle_message (.text (serialize_clipboard_message (.Text ⟨"hi"⟩))) "u" false
        ⟨.Text "", ⟨0, 0⟩, "s", 0⟩
      = some (⟨.Text "hi", ⟨0, 0⟩, "u", 0⟩,
        [SessionEffect.setText "hi" false, SessionEffect.logged ("set text error")]) := by
  rw [C9_cache_updated_on_failed_write (serialize_clipboard_message (.Text ⟨"hi"⟩)) "hi"
    ⟨.Text "", ⟨0, 0⟩, "s", 0⟩ "u" (by rfl)]

/-- C8: reconnection policy — every failed connection attempt is followed
by exactly the fixed 60-second interval, the same for every attempt (no
backoff, no jitter), the loop processes every attempt of any sequence (no
attempt limit), and every session started by a successful attempt begins
with a freshly built ClientState whose cache is the empty text — nothing
is carried over from an earlier session, so the first tick may re-send
the current clipboard content. -/
theorem C8_reconnect_policy :
    (∀ uid : String, start_attempt .err uid = (none, RETRY_CONNECT_INTERVAL_IN_SECONDS))
    ∧ RETRY_CONNECT_INTERVAL_IN_SECONDS = 60
    ∧ (∀ attempts : List (ConnectResult × String),
        (start_trace attempts).length = attempts.length)
    ∧ (∀ uid : String, (start_attempt .ok uid).1 = some (initial_client_state uid))
    ∧ (∀ uid : String, (initial_client_state uid).cache = .Text "") := by
  refine ⟨fun _ => rfl, rfl, ?_, fun _ => rfl, fun _ => rfl⟩
  intro attempts
  induction attempts with
  | nil => rfl
  | cons a rest ih =>
    cases a
    simp [start_trace, ih]

/-- C10: the 60-second delay is applied only when the connection attempt
itself fails; after a successful attempt whose session later ends, the
loop starts the next connection attempt with zero delay. -/
theorem C10_delay_only_on_failure :
    (∀ uid : String, (start_attempt .ok uid).2 = 0)
    ∧ (∀ uid : String, (start_attempt .err uid).2 = RETRY_CONNECT_INTERVAL_IN_SECONDS) :=
  ⟨fun _ => rfl, fun _ => rfl⟩
